import Mathlib

/-!
Verification of the Black-Scholes options pricing and risk engine
(`risk_metrics.py`, `strategy.py`): the pricing formula, the Greeks
(delta, gamma, vega), implied-volatility-driven `Leg` construction and
`Strategy` aggregation, embedded over the real numbers.
-/

open MeasureTheory

/-- Standard normal probability density function, the model of `scipy.stats.norm.pdf`. -/
noncomputable def normPdf (x : ℝ) : ℝ :=
  Real.exp (-(x ^ 2) / 2) / Real.sqrt (2 * Real.pi)

/-- Standard normal cumulative distribution function, the model of `scipy.stats.norm.cdf`. -/
noncomputable def normCdf (x : ℝ) : ℝ :=
  ∫ t in Set.Iic x, normPdf t

/-- The standard normal density coincides with the mean-0 variance-1 Gaussian density. -/
lemma normPdf_eq_gaussianPDFReal : normPdf = ProbabilityTheory.gaussianPDFReal 0 1 := by
  funext x
  simp only [normPdf, ProbabilityTheory.gaussianPDFReal, NNReal.coe_one, mul_one, sub_zero]
  rw [div_eq_inv_mul]

lemma normPdf_pos (x : ℝ) : 0 < normPdf x := by
  rw [normPdf_eq_gaussianPDFReal]
  exact ProbabilityTheory.gaussianPDFReal_pos 0 1 x one_ne_zero

lemma integrable_normPdf : Integrable normPdf := by
  rw [normPdf_eq_gaussianPDFReal]
  exact ProbabilityTheory.integrable_gaussianPDFReal 0 1

lemma integral_normPdf : ∫ x, normPdf x = 1 := by
  rw [normPdf_eq_gaussianPDFReal]
  exact ProbabilityTheory.integral_gaussianPDFReal_eq_one 0 one_ne_zero

lemma normPdf_neg (x : ℝ) : normPdf (-x) = normPdf x := by
  simp [normPdf, neg_sq]

/-- The standard normal CDF of `x` and of `-x` sum to one. -/
lemma normCdf_add_normCdf_neg (x : ℝ) : normCdf x + normCdf (-x) = 1 := by
  have hneg : normCdf (-x) = ∫ t in Set.Ioi x, normPdf t := by
    rw [normCdf, ← integral_comp_neg_Ioi]
    exact setIntegral_congr_fun measurableSet_Ioi fun t _ => normPdf_neg t
  rw [normCdf, hneg,
    intervalIntegral.integral_Iic_add_Ioi integrable_normPdf.integrableOn
      integrable_normPdf.integrableOn,
    integral_normPdf]

lemma normCdf_pos (x : ℝ) : 0 < normCdf x := by
  rw [normCdf, setIntegral_pos_iff_support_of_nonneg_ae
    (ae_of_all _ fun t => (normPdf_pos t).le) integrable_normPdf.integrableOn]
  have hsupp : Function.support normPdf ∩ Set.Iic x = Set.Iic x :=
    Set.inter_eq_self_of_subset_right fun t _ => Function.mem_support.mpr (normPdf_pos t).ne'
  rw [hsupp, Real.volume_Iic]
  exact ENNReal.zero_lt_top

lemma normCdf_lt_one (x : ℝ) : normCdf x < 1 := by
  have h := normCdf_add_normCdf_neg x
  have hp := normCdf_pos (-x)
  linarith

/-- The BlackScholes class of risk_metrics.py: contract terms (spot `S`, strike `K`,
time to maturity `T`, risk-free rate `r`) and the option kind label, fixed at
construction. The kind is a free-form string, as in the source. -/
structure BlackScholes where
  S : ℝ
  K : ℝ
  T : ℝ
  r : ℝ
  option : String

/-- The method BlackScholes.black_scholes(sigma): computes d1 and d2 and branches on
the option kind. An unrecognized kind falls through both branches and the Python
method implicitly returns None, modelled here as `none`. -/
noncomputable def BlackScholes.black_scholes (m : BlackScholes) (sigma : ℝ) : Option ℝ :=
  let d1 := (Real.log (m.S / m.K) + (m.r + 0.5 * sigma ^ 2) * m.T) / (sigma * Real.sqrt m.T)
  let d2 := d1 - sigma * Real.sqrt m.T
  if m.option = "call" then
    some (m.S * normCdf d1 - m.K * Real.exp (-m.r * m.T) * normCdf d2)
  else if m.option = "put" then
    some (m.K * Real.exp (-m.r * m.T) * normCdf (-d2) - m.S * normCdf (-d1))
  else
    none

/-- The method BlackScholes.implied_volatility(sigma, price): builds the squared-error
objective and calls scipy.optimize.fmin seeded at `sigma`, returning its result.
The external Nelder-Mead minimizer is not part of this repository, so it is a
parameter `fmin` receiving the objective and the initial guess; the objective is
Option-valued because black_scholes can return None. -/
noncomputable def BlackScholes.implied_volatility
    (fmin : (ℝ → Option ℝ) → ℝ → ℝ) (m : BlackScholes) (sigma price : ℝ) : ℝ :=
  let target := fun s => (m.black_scholes s).map fun p => (p - price) ^ 2
  fmin target sigma

/-- The Risk class of risk_metrics.py: contract terms plus a volatility `sigma` and the
option kind label, fixed at construction. -/
structure Risk where
  S : ℝ
  K : ℝ
  T : ℝ
  r : ℝ
  sigma : ℝ
  option : String

/-- The method Risk.delta(): recomputes d1 and branches on the option kind; an
unrecognized kind implicitly returns None, modelled as `none`. -/
noncomputable def Risk.delta (m : Risk) : Option ℝ :=
  let d1 := (Real.log (m.S / m.K) + (m.r + 0.5 * m.sigma ^ 2) * m.T) /
    (m.sigma * Real.sqrt m.T)
  if m.option = "call" then
    some (normCdf d1)
  else if m.option = "put" then
    some (normCdf d1 - 1)
  else
    none

/-- The method Risk.gamma(): recomputes d1; no branch on the option kind. -/
noncomputable def Risk.gamma (m : Risk) : ℝ :=
  let d1 := (Real.log (m.S / m.K) + (m.r + 0.5 * m.sigma ^ 2) * m.T) /
    (m.sigma * Real.sqrt m.T)
  normPdf d1 / (m.S * m.sigma * Real.sqrt m.T)

/-- The method Risk.vega(): recomputes d1; no branch on the option kind. -/
noncomputable def Risk.vega (m : Risk) : ℝ :=
  let d1 := (Real.log (m.S / m.K) + (m.r + 0.5 * m.sigma ^ 2) * m.T) /
    (m.sigma * Real.sqrt m.T)
  m.S * normPdf d1 * Real.sqrt m.T / 100

/-- The Leg class of strategy.py: contract terms, the quoted price, and the fields
populated during construction (sigma from the implied-volatility solve, then the
three Greeks). The delta field is Option-valued because Risk.delta can return None. -/
structure Leg where
  underlying : ℝ
  strike : ℝ
  maturity : ℝ
  rate : ℝ
  price : ℝ
  sigma : ℝ
  delta : Option ℝ
  gamma : ℝ
  vega : ℝ
  option : String

/-- The constructor Leg.__init__ of strategy.py: solves for implied volatility seeded
at 0.2 against the quoted price, then computes the Greeks from the recovered sigma.
The external minimizer `fmin` is a parameter, as in implied_volatility. -/
noncomputable def mkLeg (fmin : (ℝ → Option ℝ) → ℝ → ℝ)
    (underlying strike maturity rate price : ℝ) (option : String) : Leg :=
  let sigma :=
    (BlackScholes.mk underlying strike maturity rate option).implied_volatility fmin 0.2 price
  let risks := Risk.mk underlying strike maturity rate sigma option
  ⟨underlying, strike, maturity, rate, price, sigma,
    risks.delta, risks.gamma, risks.vega, option⟩

/-- The Strategy class of strategy.py: an ordered list of legs. -/
structure Strategy where
  legs : List Leg

/-- The method Strategy.delta(): starts an accumulator at 0 and adds each leg's cached
delta field in order. Adding a None delta raises a TypeError in Python, modelled by
propagating `none` through the fold. -/
def Strategy.delta (s : Strategy) : Option ℝ :=
  s.legs.foldl (fun acc leg => acc.bind fun a => leg.delta.map fun d => a + d) (some 0)

/-- The method Strategy.gamma(): starts an accumulator at 0 and adds each leg's cached
gamma field in order. -/
def Strategy.gamma (s : Strategy) : ℝ :=
  s.legs.foldl (fun acc leg => acc + leg.gamma) 0

/-- The method Strategy.vega(): starts an accumulator at 0 and adds each leg's cached
vega field in order. -/
def Strategy.vega (s : Strategy) : ℝ :=
  s.legs.foldl (fun acc leg => acc + leg.vega) 0

/-- Spec formula: d1 = (ln(S/K) + (r + 0.5·sigma²)·T) / (sigma·√T). -/
noncomputable def d1Spec (S K T r sigma : ℝ) : ℝ :=
  (Real.log (S / K) + (r + 0.5 * sigma ^ 2) * T) / (sigma * Real.sqrt T)

/-- Spec formula: d2 = d1 − sigma·√T. -/
noncomputable def d2Spec (S K T r sigma : ℝ) : ℝ :=
  d1Spec S K T r sigma - sigma * Real.sqrt T

/-- Spec formula: call premium = S·Φ(d1) − K·e^(−rT)·Φ(d2). -/
noncomputable def callPremiumSpec (S K T r sigma : ℝ) : ℝ :=
  S * normCdf (d1Spec S K T r sigma) -
    K * Real.exp (-(r * T)) * normCdf (d2Spec S K T r sigma)

/-- Spec formula: put premium = K·e^(−rT)·Φ(−d2) − S·Φ(−d1). -/
noncomputable def putPremiumSpec (S K T r sigma : ℝ) : ℝ :=
  K * Real.exp (-(r * T)) * normCdf (-(d2Spec S K T r sigma)) -
    S * normCdf (-(d1Spec S K T r sigma))

/-- On the call branch, black_scholes returns the call formula (by unfolding). -/
lemma black_scholes_call_eq (S K T r sigma : ℝ) :
    (BlackScholes.mk S K T r "call").black_scholes sigma =
      some (S * normCdf (d1Spec S K T r sigma) -
        K * Real.exp (-r * T) * normCdf (d1Spec S K T r sigma - sigma * Real.sqrt T)) := rfl

/-- On the put branch, black_scholes returns the put formula (by unfolding). -/
lemma black_scholes_put_eq (S K T r sigma : ℝ) :
    (BlackScholes.mk S K T r "put").black_scholes sigma =
      some (K * Real.exp (-r * T) * normCdf (-(d1Spec S K T r sigma - sigma * Real.sqrt T)) -
        S * normCdf (-(d1Spec S K T r sigma))) := rfl

/-- On the call branch, Risk.delta returns Φ(d1) (by unfolding). -/
lemma delta_call_eq (S K T r sigma : ℝ) :
    (Risk.mk S K T r sigma "call").delta = some (normCdf (d1Spec S K T r sigma)) := rfl

/-- On the put branch, Risk.delta returns Φ(d1) − 1 (by unfolding). -/
lemma delta_put_eq (S K T r sigma : ℝ) :
    (Risk.mk S K T r sigma "put").delta = some (normCdf (d1Spec S K T r sigma) - 1) := rfl

/-- Risk.gamma returns φ(d1) / (S·sigma·√T) for every option kind (by unfolding). -/
lemma gamma_eq (S K T r sigma : ℝ) (opt : String) :
    (Risk.mk S K T r sigma opt).gamma =
      normPdf (d1Spec S K T r sigma) / (S * sigma * Real.sqrt T) := rfl

/-- Risk.vega returns S·φ(d1)·√T / 100 for every option kind (by unfolding). -/
lemma vega_eq (S K T r sigma : ℝ) (opt : String) :
    (Risk.mk S K T r sigma opt).vega =
      S * normPdf (d1Spec S K T r sigma) * Real.sqrt T / 100 := rfl

/-- Claim C1: for every contract with S>0, K>0, T>0 and every sigma>0, the call and
put prices are both defined and the call price minus the put price at identical
(S,K,T,r,sigma) equals S − K·e^(−rT) (put-call parity), exactly over the reals. -/
theorem put_call_parity (S K T r sigma : ℝ)
    (hS : 0 < S) (hK : 0 < K) (hT : 0 < T) (hsig : 0 < sigma) :
    (((BlackScholes.mk S K T r "call").black_scholes sigma).isSome = true ∧
     ((BlackScholes.mk S K T r "put").black_scholes sigma).isSome = true) ∧
    ((BlackScholes.mk S K T r "call").black_scholes sigma).getD 0 -
      ((BlackScholes.mk S K T r "put").black_scholes sigma).getD 0 =
      S - K * Real.exp (-r * T) := by
  rw [black_scholes_call_eq, black_scholes_put_eq]
  refine ⟨⟨rfl, rfl⟩, ?_⟩
  rw [Option.getD_some, Option.getD_some]
  have h1 := normCdf_add_normCdf_neg (d1Spec S K T r sigma)
  have h2 := normCdf_add_normCdf_neg (d1Spec S K T r sigma - sigma * Real.sqrt T)
  linear_combination S * h1 - K * Real.exp (-r * T) * h2

/-- Claim C1 witness: put-call parity at S=1, K=1, T=1, r=0, sigma=1. -/
theorem put_call_parity_witness :
    (0:ℝ) < 1 ∧
    ((((BlackScholes.mk 1 1 1 0 "call").black_scholes 1).isSome = true ∧
      ((BlackScholes.mk 1 1 1 0 "put").black_scholes 1).isSome = true) ∧
     ((BlackScholes.mk 1 1 1 0 "call").black_scholes 1).getD 0 -
       ((BlackScholes.mk 1 1 1 0 "put").black_scholes 1).getD 0 =
       1 - 1 * Real.exp (-0 * 1)) :=
  ⟨zero_lt_one, put_call_parity 1 1 1 0 1 zero_lt_one zero_lt_one zero_lt_one zero_lt_one⟩

/-- Claim C2 failing input: for the unrecognized option kind "straddle", both the
pricing method and delta fall through every branch and return None (modelled `none`)
rather than raising an InvalidOptionKind error as the specification requires. -/
theorem invalid_kind_returns_none :
    (BlackScholes.mk 100 100 1 0.05 "straddle").black_scholes 0.2 = none ∧
    (Risk.mk 100 100 1 0.05 0.2 "straddle").delta = none :=
  ⟨rfl, rfl⟩

/-- Claim C3: for every S>0, K>0, T>0, r and sigma>0, black_scholes returns exactly
the spec formulas: S·Φ(d1) − K·e^(−rT)·Φ(d2) for a call and
K·e^(−rT)·Φ(−d2) − S·Φ(−d1) for a put, with d1 and d2 the standard quantities. -/
theorem black_scholes_matches_spec (S K T r sigma : ℝ)
    (hS : 0 < S) (hK : 0 < K) (hT : 0 < T) (hsig : 0 < sigma) :
    (BlackScholes.mk S K T r "call").black_scholes sigma =
      some (callPremiumSpec S K T r sigma) ∧
    (BlackScholes.mk S K T r "put").black_scholes sigma =
      some (putPremiumSpec S K T r sigma) := by
  rw [black_scholes_call_eq, black_scholes_put_eq]
  constructor <;>
    simp only [callPremiumSpec, putPremiumSpec, d2Spec, neg_mul]

/-- Claim C3 witness: the pricing formulas at S=1, K=1, T=1, r=0, sigma=1. -/
theorem black_scholes_matches_spec_witness :
    (0:ℝ) < 1 ∧
    ((BlackScholes.mk 1 1 1 0 "call").black_scholes 1 = some (callPremiumSpec 1 1 1 0 1) ∧
     (BlackScholes.mk 1 1 1 0 "put").black_scholes 1 = some (putPremiumSpec 1 1 1 0 1)) :=
  ⟨zero_lt_one,
    black_scholes_matches_spec 1 1 1 0 1 zero_lt_one zero_lt_one zero_lt_one zero_lt_one⟩

/-- Claim C4: for every S>0, K>0, T>0, r, sigma>0, delta() returns Φ(d1) for a call
and Φ(d1) − 1 for a put, with d1 the same formula as in the pricing model. -/
theorem delta_matches_spec (S K T r sigma : ℝ)
    (hS : 0 < S) (hK : 0 < K) (hT : 0 < T) (hsig : 0 < sigma) :
    (Risk.mk S K T r sigma "call").delta = some (normCdf (d1Spec S K T r sigma)) ∧
    (Risk.mk S K T r sigma "put").delta = some (normCdf (d1Spec S K T r sigma) - 1) :=
  ⟨delta_call_eq S K T r sigma, delta_put_eq S K T r sigma⟩

/-- Claim C4 witness: the delta formulas at S=1, K=1, T=1, r=0, sigma=1. -/
theorem delta_matches_spec_witness :
    (0:ℝ) < 1 ∧
    ((Risk.mk 1 1 1 0 1 "call").delta = some (normCdf (d1Spec 1 1 1 0 1)) ∧
     (Risk.mk 1 1 1 0 1 "put").delta = some (normCdf (d1Spec 1 1 1 0 1) - 1)) :=
  ⟨zero_lt_one, delta_matches_spec 1 1 1 0 1 zero_lt_one zero_lt_one zero_lt_one zero_lt_one⟩

/-- Claim C5: for every S>0, K>0, T>0, r, sigma>0 and every option kind, vega()
returns S·φ(d1)·√T / 100, the per-unit-sigma sensitivity divided by 100. -/
theorem vega_matches_spec (S K T r sigma : ℝ)
    (hS : 0 < S) (hK : 0 < K) (hT : 0 < T) (hsig : 0 < sigma) :
    ∀ opt : String, (Risk.mk S K T r sigma opt).vega =
      S * normPdf (d1Spec S K T r sigma) * Real.sqrt T / 100 :=
  fun opt => vega_eq S K T r sigma opt

/-- Claim C5 witness: the vega formula at S=1, K=1, T=1, r=0, sigma=1, kind call. -/
theorem vega_matches_spec_witness :
    (0:ℝ) < 1 ∧
    (Risk.mk 1 1 1 0 1 "call").vega = 1 * normPdf (d1Spec 1 1 1 0 1) * Real.sqrt 1 / 100 :=
  ⟨zero_lt_one,
    vega_matches_spec 1 1 1 0 1 zero_lt_one zero_lt_one zero_lt_one zero_lt_one "call"⟩

/-- Claim C6: for every S>0, K>0, T>0, r, sigma>0, gamma() returns
φ(d1) / (S·sigma·√T) for every option kind, and in particular its value for kind
call equals its value for kind put (gamma never branches on the option kind). -/
theorem gamma_matches_spec_and_kind_independent (S K T r sigma : ℝ)
    (hS : 0 < S) (hK : 0 < K) (hT : 0 < T) (hsig : 0 < sigma) :
    (∀ opt : String, (Risk.mk S K T r sigma opt).gamma =
      normPdf (d1Spec S K T r sigma) / (S * sigma * Real.sqrt T)) ∧
    (Risk.mk S K T r sigma "call").gamma = (Risk.mk S K T r sigma "put").gamma :=
  ⟨fun opt => gamma_eq S K T r sigma opt, rfl⟩

/-- Claim C6 witness: the gamma formula and kind-independence at S=1, K=1, T=1,
r=0, sigma=1. -/
theorem gamma_matches_spec_and_kind_independent_witness :
    (0:ℝ) < 1 ∧
    ((Risk.mk 1 1 1 0 1 "call").gamma =
       normPdf (d1Spec 1 1 1 0 1) / (1 * 1 * Real.sqrt 1) ∧
     (Risk.mk 1 1 1 0 1 "call").gamma = (Risk.mk 1 1 1 0 1 "put").gamma) :=
  ⟨zero_lt_one,
    (gamma_matches_spec_and_kind_independent 1 1 1 0 1 zero_lt_one zero_lt_one zero_lt_one
      zero_lt_one).1 "call",
    (gamma_matches_spec_and_kind_independent 1 1 1 0 1 zero_lt_one zero_lt_one zero_lt_one
      zero_lt_one).2⟩

/-- Claim C9: for every S>0, K>0, T>0, r, sigma>0, both deltas are defined and the
call delta minus the put delta at identical parameters equals exactly 1. -/
theorem delta_call_sub_delta_put (S K T r sigma : ℝ)
    (hS : 0 < S) (hK : 0 < K) (hT : 0 < T) (hsig : 0 < sigma) :
    (((Risk.mk S K T r sigma "call").delta).isSome = true ∧
     ((Risk.mk S K T r sigma "put").delta).isSome = true) ∧
    ((Risk.mk S K T r sigma "call").delta).getD 0 -
      ((Risk.mk S K T r sigma "put").delta).getD 0 = 1 := by
  rw [delta_call_eq, delta_put_eq]
  exact ⟨⟨rfl, rfl⟩, by rw [Option.getD_some, Option.getD_some]; ring⟩

/-- Claim C9 witness: delta parity at S=1, K=1, T=1, r=0, sigma=1. -/
theorem delta_call_sub_delta_put_witness :
    (0:ℝ) < 1 ∧
    ((((Risk.mk 1 1 1 0 1 "call").delta).isSome = true ∧
      ((Risk.mk 1 1 1 0 1 "put").delta).isSome = true) ∧
     ((Risk.mk 1 1 1 0 1 "call").delta).getD 0 -
       ((Risk.mk 1 1 1 0 1 "put").delta).getD 0 = 1) :=
  ⟨zero_lt_one,
    delta_call_sub_delta_put 1 1 1 0 1 zero_lt_one zero_lt_one zero_lt_one zero_lt_one⟩

/-- Claim C10: for every S>0, K>0, T>0, r, sigma>0, gamma and vega are strictly
positive for every option kind, the call delta lies in (0,1) and the put delta lies
in (−1,0). -/
theorem greeks_sign_bounds (S K T r sigma : ℝ)
    (hS : 0 < S) (hK : 0 < K) (hT : 0 < T) (hsig : 0 < sigma) :
    (∀ opt : String, 0 < (Risk.mk S K T r sigma opt).gamma) ∧
    (∀ opt : String, 0 < (Risk.mk S K T r sigma opt).vega) ∧
    (0 < ((Risk.mk S K T r sigma "call").delta).getD 0 ∧
      ((Risk.mk S K T r sigma "call").delta).getD 0 < 1) ∧
    (-1 < ((Risk.mk S K T r sigma "put").delta).getD 0 ∧
      ((Risk.mk S K T r sigma "put").delta).getD 0 < 0) := by
  have hsqrtT : 0 < Real.sqrt T := Real.sqrt_pos.mpr hT
  refine ⟨fun opt => ?_, fun opt => ?_, ?_, ?_⟩
  · rw [gamma_eq]
    exact div_pos (normPdf_pos _) (mul_pos (mul_pos hS hsig) hsqrtT)
  · rw [vega_eq]
    exact div_pos (mul_pos (mul_pos hS (normPdf_pos _)) hsqrtT) (by norm_num)
  · rw [delta_call_eq, Option.getD_some]
    exact ⟨normCdf_pos _, normCdf_lt_one _⟩
  · rw [delta_put_eq, Option.getD_some]
    have h1 := normCdf_pos (d1Spec S K T r sigma)
    have h2 := normCdf_lt_one (d1Spec S K T r sigma)
    constructor <;> linarith

/-- Claim C10 witness: the sign bounds at S=1, K=1, T=1, r=0, sigma=1, kind call
for gamma and vega. -/
theorem greeks_sign_bounds_witness :
    (0:ℝ) < 1 ∧
    (0 < (Risk.mk 1 1 1 0 1 "call").gamma ∧
     0 < (Risk.mk 1 1 1 0 1 "call").vega ∧
     (0 < ((Risk.mk 1 1 1 0 1 "call").delta).getD 0 ∧
       ((Risk.mk 1 1 1 0 1 "call").delta).getD 0 < 1) ∧
     (-1 < ((Risk.mk 1 1 1 0 1 "put").delta).getD 0 ∧
       ((Risk.mk 1 1 1 0 1 "put").delta).getD 0 < 0)) :=
  ⟨zero_lt_one,
    (greeks_sign_bounds 1 1 1 0 1 zero_lt_one zero_lt_one zero_lt_one zero_lt_one).1 "call",
    (greeks_sign_bounds 1 1 1 0 1 zero_lt_one zero_lt_one zero_lt_one zero_lt_one).2.1 "call",
    (greeks_sign_bounds 1 1 1 0 1 zero_lt_one zero_lt_one zero_lt_one zero_lt_one).2.2.1,
    (greeks_sign_bounds 1 1 1 0 1 zero_lt_one zero_lt_one zero_lt_one zero_lt_one).2.2.2⟩

/-- Folding addition of a projected field over legs adds the sum of the projections. -/
lemma foldl_add_proj_eq_sum (f : Leg → ℝ) (legs : List Leg) : ∀ a : ℝ,
    legs.foldl (fun acc l => acc + f l) a = a + (legs.map f).sum := by
  induction legs with
  | nil => intro a; simp
  | cons l ls ih => intro a; simp [ih, add_assoc]

/-- Once the delta accumulator is `none` it stays `none`. -/
lemma delta_foldl_none (legs : List Leg) :
    legs.foldl (fun acc leg => acc.bind fun a => leg.delta.map fun d => a + d) none = none := by
  induction legs with
  | nil => rfl
  | cons l ls ih => simpa using ih

/-- The delta fold from a defined accumulator is the sum of all leg deltas when every
leg delta is defined, and `none` otherwise. -/
lemma delta_foldl_eq (legs : List Leg) : ∀ a : ℝ,
    legs.foldl (fun acc leg => acc.bind fun a => leg.delta.map fun d => a + d) (some a) =
      (List.mapM' Leg.delta legs).map fun ds => a + ds.sum := by
  induction legs with
  | nil => intro a; simp
  | cons l ls ih =>
    intro a
    cases hd : l.delta with
    | none => simp [List.foldl_cons, hd, delta_foldl_none, List.mapM'_cons]
    | some d =>
      have hstep : ((some a).bind fun x => l.delta.map fun d2 => x + d2) = some (a + d) := by
        rw [hd]; rfl
      rw [List.foldl_cons, hstep, ih (a + d), List.mapM'_cons, hd]
      cases hm : List.mapM' Leg.delta ls with
      | none => simp [hm]
      | some ds => simp [hm, add_assoc]

/-- Claim C7: for every sequence of legs, Strategy.delta, Strategy.gamma and
Strategy.vega return exactly the sum of the corresponding cached leg fields (for
delta, the sum of the cached deltas whenever all are defined, `none` otherwise), and
the empty strategy yields 0 for all three. -/
theorem strategy_aggregates_are_sums (legs : List Leg) :
    (Strategy.mk legs).gamma = (legs.map Leg.gamma).sum ∧
    (Strategy.mk legs).vega = (legs.map Leg.vega).sum ∧
    (Strategy.mk legs).delta = (legs.mapM Leg.delta).map List.sum ∧
    ((Strategy.mk []).delta = some 0 ∧ (Strategy.mk []).gamma = 0 ∧
      (Strategy.mk []).vega = 0) := by
  refine ⟨?_, ?_, ?_, rfl, rfl, rfl⟩
  · rw [Strategy.gamma, foldl_add_proj_eq_sum, zero_add]
  · rw [Strategy.vega, foldl_add_proj_eq_sum, zero_add]
  · rw [Strategy.delta, delta_foldl_eq, List.mapM'_eq_mapM]
    simp

/-- Claim C8: for every minimizer and every construction input, the Leg constructor
stores as sigma the result of the implied-volatility solve seeded at the fixed
initial guess 0.2 against the quoted price, and stores as delta, gamma and vega the
risk calculator outputs at exactly that recovered sigma; the remaining fields are
the construction inputs unchanged. -/
theorem mkLeg_construction (fmin : (ℝ → Option ℝ) → ℝ → ℝ)
    (u k t r p : ℝ) (opt : String) :
    (mkLeg fmin u k t r p opt).sigma =
      (BlackScholes.mk u k t r opt).implied_volatility fmin 0.2 p ∧
    (mkLeg fmin u k t r p opt).delta =
      (Risk.mk u k t r ((BlackScholes.mk u k t r opt).implied_volatility fmin 0.2 p) opt).delta ∧
    (mkLeg fmin u k t r p opt).gamma =
      (Risk.mk u k t r ((BlackScholes.mk u k t r opt).implied_volatility fmin 0.2 p) opt).gamma ∧
    (mkLeg fmin u k t r p opt).vega =
      (Risk.mk u k t r ((BlackScholes.mk u k t r opt).implied_volatility fmin 0.2 p) opt).vega ∧
    (mkLeg fmin u k t r p opt).underlying = u ∧
    (mkLeg fmin u k t r p opt).strike = k ∧
    (mkLeg fmin u k t r p opt).maturity = t ∧
    (mkLeg fmin u k t r p opt).rate = r ∧
    (mkLeg fmin u k t r p opt).price = p ∧
    (mkLeg fmin u k t r p opt).option = opt :=
  ⟨rfl, rfl, rfl, rfl, rfl, rfl, rfl, rfl, rfl, rfl⟩
